import Mathlib

/-!
Verification of the Medi_Sure drug-safety backend.

This file gives a shallow embedding, in Lean 4, of the core orchestration
and fusion logic of the repository:

* `src/backend/dataset_loader.py` — drug-identity resolution and pairwise
  interaction lookup (`get_drugbank_id`, `check_drug_interaction`,
  `get_interaction`);
* `src/backend/main.py` — risk aggregation, age-based dosage advice,
  alternative suggestions and the two analysis endpoints;
* `src/backend/medical_nlp_extractor.py` — the entity-fusion engine
  (`_combine_drug_extractions`, `_find_closest_match`);
* `src/backend/ocr_reader.py` — the OCR acquisition cascade
  (`extract_text_from_image`);
* `src/backend/nlp_extractor.py` — the public extraction entry point
  (`extract_drug_info`).

Python strings are modelled as Lean `String`, Python floats used as
confidence scores as `ℚ`, Python dicts with insertion order as ordered
association lists, exceptions as `Except`.  External model calls (OCR
engines, the GatorTron query, the rule-based regex extractor) are opaque
collaborators and are passed in as function or `Option` parameters.
-/

/-! ## String helpers

Models of the Python builtins used by the source: `sub in s`
(substring containment) and `s.find(sub)` (index of first occurrence,
`-1`/`none` when absent).  Both work over the code-point list of the
string, matching Python's code-point indexing. -/

/-- `charListLeads s sub` is true when `sub` occurs at the very start of `s`. -/
def charListLeads : List Char → List Char → Bool
  | _, [] => true
  | [], _ :: _ => false
  | a :: s, b :: t => a == b && charListLeads s t

/-- `charListHasSub s sub` is true when `sub` occurs somewhere inside `s`
(Python `sub in s`; the empty list occurs in everything). -/
def charListHasSub : List Char → List Char → Bool
  | [], sub => sub.isEmpty
  | a :: s, sub => charListLeads (a :: s) sub || charListHasSub s sub

/-- Python `sub in s` on strings. -/
def strContains (s sub : String) : Bool :=
  charListHasSub s.toList sub.toList

/-- Index of the first occurrence of `sub` in `s`, `none` when absent. -/
def charListFindSub : List Char → List Char → Option Nat
  | [], sub => if sub.isEmpty then some 0 else none
  | a :: s, sub =>
    if charListLeads (a :: s) sub then some 0
    else (charListFindSub s sub).map (· + 1)

/-- Python `s.find(sub)`: `some` index of the first occurrence, `none` for `-1`. -/
def strFindPos (s sub : String) : Option Nat :=
  charListFindSub s.toList sub.toList

/-- Python `s.lower()` (ASCII case mapping, code point by code point). -/
def strLower (s : String) : String :=
  ⟨s.toList.map Char.toLower⟩

/-- Python `s.upper()` (ASCII case mapping, code point by code point). -/
def strUpper (s : String) : String :=
  ⟨s.toList.map Char.toUpper⟩

/-- Python `s.strip()`: drop whitespace from both ends. -/
def strStrip (s : String) : String :=
  ⟨((s.toList.dropWhile Char.isWhitespace).reverse.dropWhile Char.isWhitespace).reverse⟩

/-- Python `s.startswith(pre)`. -/
def pyStartsWith (s pre : String) : Bool :=
  charListLeads s.toList pre.toList

/-- Python `s.title()` restricted to the single lower-case words it is
applied to in the source (`alternative_map` values): upper-case the first
code point. -/
def strCapitalize (s : String) : String :=
  match s.toList with
  | [] => ""
  | a :: rest => ⟨Char.toUpper a :: rest⟩

/-- Python `"; ".join`-style joining used by `DatasetLoader.get_interaction`
(the separator is fixed to `"; "` as in the source). -/
def joinSemi : List String → String
  | [] => ""
  | [a] => a
  | a :: b :: rest => a ++ "; " ++ joinSemi (b :: rest)

/-! ## `src/backend/dataset_loader.py` -/

/-- One row of the HODDI interaction table (`hoddi_sample.csv`): the columns
read by `check_drug_interaction`.  The source reads `severity` and
`description` with `.get(..., default)`; the CSV columns are modelled as
always present. -/
structure HoddiRow where
  drug1_drugbank_id : String
  drug2_drugbank_id : String
  severity : String
  description : String
deriving DecidableEq

/-- State of a `DatasetLoader` after `load_datasets`: the interaction table
(list of rows in file order; `[]` when the file is missing or empty) and
the drug-mapping dict (insertion-ordered key/value pairs). -/
structure Loader where
  hoddi_data : List HoddiRow
  drug_mapping : List (String × String)
deriving DecidableEq

/-- `DatasetLoader.get_drugbank_id`: normalize (lower-case, trim), direct
dict lookup, then the fuzzy substring pass in table iteration order, then
the `DB_UNKNOWN_<UPPER(name)>` sentinel. -/
def get_drugbank_id (L : Loader) (drug_name : String) : String :=
  let drug_name_lower := strStrip (strLower drug_name)
  match L.drug_mapping.find? (fun p => p.1 == drug_name_lower) with
  | some p => p.2
  | none =>
    match L.drug_mapping.find? (fun p =>
        strContains p.1 drug_name_lower || strContains drug_name_lower p.1) with
    | some p => p.2
    | none => "DB_UNKNOWN_" ++ strUpper drug_name

/-- `DatasetLoader.check_drug_interaction`: early return when the table is
empty, resolve both names, select the rows matching either ordering of the
identifier pair (pandas boolean mask, preserving row order), and format the
first hit; `"None"` for no hit. -/
def check_drug_interaction (L : Loader) (drug1 drug2 : String) : String :=
  if L.hoddi_data.isEmpty then "Dataset not available"
  else
    let drug1_id := get_drugbank_id L drug1
    let drug2_id := get_drugbank_id L drug2
    match L.hoddi_data.find? (fun r =>
        (r.drug1_drugbank_id == drug1_id && r.drug2_drugbank_id == drug2_id) ||
        (r.drug1_drugbank_id == drug2_id && r.drug2_drugbank_id == drug1_id)) with
    | some r => r.severity ++ ": " ++ r.description
    | none => "None"

/-- One element of the list returned by `DatasetLoader.get_interaction`. -/
structure InteractionResult where
  drug : String
  drugbank_id : String
  interaction : String
deriving DecidableEq

/-- `DatasetLoader.get_interaction`: for each drug, collect the non-`"None"`
pairwise interactions with every other list element (by index, so `i ≠ j`),
joined with `"; "`; the field stays `"None"` when no pair hits. -/
def get_interaction (L : Loader) (drugs : List String) : List InteractionResult :=
  drugs.enum.map (fun (iDrug : Nat × String) =>
    let interactions := drugs.enum.filterMap (fun (jOther : Nat × String) =>
      if iDrug.1 ≠ jOther.1 then
        let inter := check_drug_interaction L iDrug.2 jOther.2
        if inter ≠ "None" then some ("with " ++ jOther.2 ++ ": " ++ inter) else none
      else none)
    ⟨strStrip iDrug.2, get_drugbank_id L iDrug.2,
      if interactions.isEmpty then "None" else joinSemi interactions⟩)

/-! ## `src/backend/main.py` -/

/-- `_extract_severity`: keyword scan over the lower-cased interaction text. -/
def extract_severity (interaction_text : String) : String :=
  let interaction_lower := strLower interaction_text
  if strContains interaction_lower "severe" || strContains interaction_lower "major" then
    "High"
  else if strContains interaction_lower "moderate" || strContains interaction_lower "warning" then
    "Medium"
  else
    "Low"

/-- One `DosageAdvice` record produced by `_get_age_based_dosage_advice`. -/
structure DosageAdviceR where
  drug : String
  current_dosage : String
  recommended_dosage : String
  advice : String
  risk_level : String
deriving DecidableEq

/-- An extracted-drug dict as produced by the (external) extractor behind
`drug_extractor.extract_drugs(...)["drugs"]`: name, dosage and frequency. -/
structure ExtractedDrug where
  name : String
  dosage : String
  frequency : String
deriving DecidableEq

/-- A `DrugInfo` Pydantic model from `main.py`; `drugbank_id` is `Optional`
(`None` when the drug has no matching interaction result). -/
structure DrugInfoM where
  name : String
  dosage : String
  frequency : String
  drugbank_id : Option String
  interaction : String
deriving DecidableEq

/-- An `Alternative` Pydantic model from `main.py`. -/
structure AlternativeR where
  original_drug : String
  alternative : String
  reason : String
deriving DecidableEq

/-- One entry of the `interactions` summary list built by the endpoints. -/
structure InteractionSummary where
  drug : String
  drugbank_id : String
  interaction : String
  severity : String
deriving DecidableEq

/-- `_calculate_overall_risk`: count High/Medium signals over the
interaction results (skipping the `"None"` sentinel) and the dosage advice,
then classify. -/
def calculate_overall_risk (interaction_results : List InteractionResult)
    (dosage_advice : List DosageAdviceR) : String :=
  let interCounts := interaction_results.foldl (fun (c : Nat × Nat) result =>
    if result.interaction ≠ "None" then
      let severity := extract_severity result.interaction
      if severity = "High" then (c.1 + 1, c.2)
      else if severity = "Medium" then (c.1, c.2 + 1)
      else c
    else c) (0, 0)
  let allCounts := dosage_advice.foldl (fun (c : Nat × Nat) advice =>
    if advice.risk_level = "High" then (c.1 + 1, c.2)
    else if advice.risk_level = "Medium" then (c.1, c.2 + 1)
    else c) interCounts
  if allCounts.1 > 0 then "High"
  else if allCounts.2 > 0 then "Medium"
  else "Low"

/-- `_get_age_based_dosage_advice`: the deterministic age-banded rules of
`main.py` (pediatric `< 18`, geriatric `> 65`, adult otherwise). -/
def get_age_based_dosage_advice (drugs : List DrugInfoM) (age : Int) :
    List DosageAdviceR :=
  drugs.map (fun drug =>
    let current_dosage := drug.dosage
    if age < 18 then
      if strContains current_dosage "500mg" then
        ⟨drug.name, current_dosage, current_dosage.replace "500mg" "250mg",
          "Reduced dosage recommended for pediatric patients", "Medium"⟩
      else if strContains current_dosage "1000mg" then
        ⟨drug.name, current_dosage, current_dosage.replace "1000mg" "500mg",
          "Significantly reduced dosage for pediatric use", "High"⟩
      else
        ⟨drug.name, current_dosage, current_dosage,
          "Verify pediatric dosing guidelines", "Medium"⟩
    else if age > 65 then
      if strContains current_dosage "1000mg" then
        ⟨drug.name, current_dosage, current_dosage.replace "1000mg" "750mg",
          "Reduced dosage recommended for elderly patients", "Medium"⟩
      else if strContains current_dosage "500mg" && strContains drug.frequency "3/day" then
        ⟨drug.name, current_dosage, current_dosage,
          "Consider reducing frequency for elderly patients", "Medium"⟩
      else
        ⟨drug.name, current_dosage, current_dosage,
          "Standard adult dosage appropriate", "Low"⟩
    else
      ⟨drug.name, current_dosage, current_dosage,
        "Standard adult dosage appropriate", "Low"⟩)

/-- The fixed substitution table of `_suggest_alternatives`. -/
def alternative_map : List (String × String) :=
  [("paracetamol", "ibuprofen"), ("acetaminophen", "ibuprofen"),
   ("aspirin", "paracetamol"), ("ibuprofen", "naproxen"),
   ("warfarin", "rivaroxaban"), ("metformin", "glipizide")]

/-- `_suggest_alternatives`: for every interaction result whose text is not
`"None"` and contains `"severe"` (case-insensitive), look the drug up in the
substitution table; cap the output at 2 entries.  (The `drugs` parameter of
the Python function is unused by its body.) -/
def suggest_alternatives (interaction_results : List InteractionResult) :
    List AlternativeR :=
  (interaction_results.filterMap (fun result =>
    if result.interaction ≠ "None" && strContains (strLower result.interaction) "severe" then
      match alternative_map.find? (fun p => p.1 == strLower result.drug) with
      | some p => some ⟨result.drug, strCapitalize p.2,
          "Safer alternative due to interaction risk: " ++ result.interaction⟩
      | none => none
    else none)).take 2

/-- A raised FastAPI `HTTPException` (status code and detail). -/
structure HTTPErrorM where
  status_code : Nat
  detail : String
deriving DecidableEq

/-- `str()` of a Starlette/FastAPI `HTTPException`:
`f"{status_code}: {detail}"`. -/
def httpExceptionStr (e : HTTPErrorM) : String :=
  toString e.status_code ++ ": " ++ e.detail

/-- The `AnalysisResponse` model of the text endpoint (the wall-clock
`timestamp` field is outside the model). -/
structure AnalysisResponse where
  extracted_drugs : List DrugInfoM
  interactions : List InteractionSummary
  dosage_advice : List DosageAdviceR
  alternatives : List AlternativeR
  overall_risk : String
deriving DecidableEq

/-- The `ImageAnalysisResponse` model of the image endpoint (again without
the `timestamp`). -/
structure ImageAnalysisResponse where
  extracted_text : String
  drugs : List DrugInfoM
  interactions : List InteractionSummary
  dosage_advice : List DosageAdviceR
  alternatives : List AlternativeR
  overall_risk : String
deriving DecidableEq

/-- The shared steps 2–4 of both endpoints: enhance the extracted drugs with
interaction info (per-drug lookup by case-insensitive name, defaulting to
`drugbank_id = None`, `interaction = "None"`), compute dosage advice,
alternatives, the overall risk and the interactions summary. -/
def enhanceDrugs (interaction_results : List InteractionResult)
    (extracted_drugs : List ExtractedDrug) : List DrugInfoM :=
  extracted_drugs.map (fun drug =>
    match interaction_results.find? (fun r => strLower r.drug == strLower drug.name) with
    | some info => ⟨drug.name, drug.dosage, drug.frequency, some info.drugbank_id,
        info.interaction⟩
    | none => ⟨drug.name, drug.dosage, drug.frequency, none, "None"⟩)

/-- The interactions summary both endpoints build from the non-`"None"`
interaction results. -/
def interactionsSummary (interaction_results : List InteractionResult) :
    List InteractionSummary :=
  interaction_results.filterMap (fun result =>
    if result.interaction ≠ "None" then
      some ⟨result.drug, result.drugbank_id, result.interaction,
        extract_severity result.interaction⟩
    else none)

/-- The body of the `try:` block of `analyze_prescription` (text endpoint).
The external NLP extractor is opaque; its output
(`extraction_result.get("drugs", [])`) is the `extracted_drugs` parameter. -/
def analyze_prescription_try (L : Loader) (age : Int)
    (extracted_drugs : List ExtractedDrug) : Except HTTPErrorM AnalysisResponse :=
  if extracted_drugs.isEmpty then
    .error ⟨400, "No drugs found in prescription text"⟩
  else
    let drug_names := extracted_drugs.map (·.name)
    let interaction_results := get_interaction L drug_names
    let enhanced_drugs := enhanceDrugs interaction_results extracted_drugs
    let dosage_advice := get_age_based_dosage_advice enhanced_drugs age
    let alternatives := suggest_alternatives interaction_results
    let overall_risk := calculate_overall_risk interaction_results dosage_advice
    .ok ⟨enhanced_drugs, interactionsSummary interaction_results, dosage_advice,
      alternatives, overall_risk⟩

/-- `analyze_prescription` (text endpoint): its only handler is a bare
`except Exception`, which also catches the endpoint's own `HTTPException`s
and re-raises `HTTPException(500, f"Analysis failed: {str(e)}")`. -/
def analyze_prescription (L : Loader) (age : Int)
    (extracted_drugs : List ExtractedDrug) : Except HTTPErrorM AnalysisResponse :=
  match analyze_prescription_try L age extracted_drugs with
  | .ok r => .ok r
  | .error e => .error ⟨500, "Analysis failed: " ++ httpExceptionStr e⟩

/-- The body of the `try:` block of `analyze_prescription_image`.  The OCR
reader is opaque; its output is the `extracted_text` parameter, and the NLP
extractor output is `extracted_drugs`.  A `None` upload content type is
modelled as the empty string. -/
def analyze_prescription_image_try (L : Loader) (age : Int)
    (content_type : String) (extracted_text : String)
    (extracted_drugs : List ExtractedDrug) : Except HTTPErrorM ImageAnalysisResponse :=
  if content_type = "" || !pyStartsWith content_type "image/" then
    .error ⟨400, "Invalid image format. Please upload JPG or PNG."⟩
  else if extracted_text = "" || (strStrip extracted_text).length < 10 then
    .error ⟨400, "Could not extract readable text from image. Please ensure the image is clear and contains prescription text."⟩
  else if extracted_drugs.isEmpty then
    .error ⟨400, "No drugs found in prescription image. Please ensure the image contains a valid prescription."⟩
  else
    let drug_names := extracted_drugs.map (·.name)
    let interaction_results := get_interaction L drug_names
    let enhanced_drugs := enhanceDrugs interaction_results extracted_drugs
    let dosage_advice := get_age_based_dosage_advice enhanced_drugs age
    let alternatives := suggest_alternatives interaction_results
    let overall_risk := calculate_overall_risk interaction_results dosage_advice
    .ok ⟨extracted_text, enhanced_drugs, interactionsSummary interaction_results,
      dosage_advice, alternatives, overall_risk⟩

/-- `analyze_prescription_image` (image endpoint): it has
`except HTTPException: raise` before the generic handler, so its own
`HTTPException`s propagate unchanged. -/
def analyze_prescription_image (L : Loader) (age : Int)
    (content_type : String) (extracted_text : String)
    (extracted_drugs : List ExtractedDrug) : Except HTTPErrorM ImageAnalysisResponse :=
  match analyze_prescription_image_try L age content_type extracted_text extracted_drugs with
  | .ok r => .ok r
  | .error e => .error e

/-! ## `src/backend/medical_nlp_extractor.py` -/

/-- The `results` dict of `_extract_with_patterns`: the per-kind candidate
lists (each entry is the matched span text, in match order). -/
structure PatternResults where
  drugs : List String
  dosages : List String
  frequencies : List String
  routes : List String
  durations : List String
deriving DecidableEq

/-- The drug-bearing payload of one extraction-method result dict, as
dispatched by the `if 'drugs' in result / elif 'drug_candidates' / elif
'results'` chain of `_combine_drug_extractions`.  Entries of the `drugs`
list are reduced to the mention name the source computes from them
(`drug.get('name', drug.get('text', ''))` for dicts, `str(drug)` otherwise).
`otherP` stands for results carrying none of the three keys (e.g. the
Watson result with only `entities`/`keywords`). -/
inductive ExtractionPayload where
  | drugsP (names : List String)
  | candidatesP (names : List String)
  | resultsP (pr : PatternResults)
  | otherP
deriving DecidableEq

/-- One element of the `extraction_results` list fed to
`_combine_drug_extractions`: the method tag, the method-level confidence
and the payload. -/
structure ExtractionResult where
  method : String
  confidence : ℚ
  payload : ExtractionPayload
deriving DecidableEq

/-- The value stored in the `all_drugs` dict for one dedup key:
`{'name': ..., 'confidence': ..., 'method': ...}`. -/
structure StoredDrug where
  name : String
  confidence : ℚ
  method : String
deriving DecidableEq

/-- The dedup key of a detection: `name.lower().strip()`. -/
def detKey (d : StoredDrug) : String := strStrip (strLower d.name)

/-- The `all_drugs` dict: insertion-ordered key/value pairs. -/
abbrev AMap := List (String × StoredDrug)

/-- Dict read: first pair with the given key. -/
def lookupDrug : AMap → String → Option StoredDrug
  | [], _ => none
  | p :: rest, k => if p.1 == k then some p.2 else lookupDrug rest k

/-- Dict write `m[k] = v`: replace in place when the key is present,
append otherwise (Python insertion-order semantics). -/
def setDrug : AMap → String → StoredDrug → AMap
  | [], k, v => [(k, v)]
  | p :: rest, k, v => if p.1 == k then (k, v) :: rest else p :: setDrug rest k v

/-- The dedup update of `_combine_drug_extractions`:
`if name_key not in all_drugs or all_drugs[name_key]['confidence'] < confidence:`
store the detection (strict `<`: ties keep the earlier entry). -/
def addDetection (confidence : ℚ) (method : String) (m : AMap) (name : String) : AMap :=
  let name_key := strStrip (strLower name)
  match lookupDrug m name_key with
  | none => setDrug m name_key ⟨name, confidence, method⟩
  | some stored =>
    if stored.confidence < confidence then setDrug m name_key ⟨name, confidence, method⟩
    else m

/-- Processing of one extraction result by the collection loop of
`_combine_drug_extractions`.  Only the `drugs` branch guards with
`if name and len(name) > 2`; the `drug_candidates` and pattern `results`
branches add every name unconditionally. -/
def processResult (m : AMap) (r : ExtractionResult) : AMap :=
  match r.payload with
  | .drugsP names =>
    names.foldl (fun m name =>
      if name ≠ "" && name.length > 2 then addDetection r.confidence r.method m name
      else m) m
  | .candidatesP names =>
    names.foldl (fun m name => addDetection r.confidence r.method m name) m
  | .resultsP pr =>
    pr.drugs.foldl (fun m name => addDetection r.confidence r.method m name) m
  | .otherP => m

/-- The `all_drugs` dict after the collection loop of
`_combine_drug_extractions` has seen every extraction result. -/
def combineMap (results : List ExtractionResult) : AMap :=
  results.foldl processResult []

/-- The detections one extraction result actually submits to the dedup
update, in submission order (the `drugs` branch drops names failing its
length guard; the other branches drop nothing). -/
def detsOf (r : ExtractionResult) : List StoredDrug :=
  match r.payload with
  | .drugsP names =>
    (names.filter (fun name => name ≠ "" && name.length > 2)).map
      (fun name => ⟨name, r.confidence, r.method⟩)
  | .candidatesP names => names.map (fun name => ⟨name, r.confidence, r.method⟩)
  | .resultsP pr => pr.drugs.map (fun name => ⟨name, r.confidence, r.method⟩)
  | .otherP => []

/-- All detections submitted to the dedup update, across the extraction
results in processing order. -/
def detStream (results : List ExtractionResult) : List StoredDrug :=
  (results.map detsOf).flatten

/-- The loop body of `_find_closest_match`: candidates not found in the
text are skipped; a found candidate replaces the running best only when its
absolute distance is strictly smaller (`distance < min_distance`), starting
from `closest_candidate = ""`, `min_distance = inf` (`none`). -/
def closestStep (text_lower : String) (drug_pos : Nat)
    (acc : String × Option Nat) (candidate : String) : String × Option Nat :=
  match strFindPos text_lower (strLower candidate) with
  | none => acc
  | some candidate_pos =>
    let distance := Nat.dist candidate_pos drug_pos
    match acc.2 with
    | none => (candidate, some distance)
    | some min_distance =>
      if distance < min_distance then (candidate, some distance) else acc

/-- `_find_closest_match`: first candidate when the drug mention is not
found in the text; otherwise the found candidate at minimum absolute
character distance (strict improvement, so the earliest candidate wins
ties); `""` when there are no candidates, or none of them is found. -/
def find_closest_match (drug_name : String) (candidates : List String)
    (text : String) : String :=
  match candidates with
  | [] => ""
  | c0 :: _ =>
    match strFindPos (strLower text) (strLower drug_name) with
    | none => c0
    | some drug_pos =>
      (candidates.foldl (closestStep (strLower text) drug_pos) ("", none)).1

/-- The `pattern_data` both attribute lookups draw from: the `results` of
the extraction result whose method is `"Pattern Matching"`, empty when
absent. -/
def patternDataOf (results : List ExtractionResult) : PatternResults :=
  match results.find? (fun r => r.method == "Pattern Matching") with
  | some r =>
    match r.payload with
    | .resultsP pr => pr
    | _ => ⟨[], [], [], [], []⟩
  | none => ⟨[], [], [], [], []⟩

/-- A `DrugEntity` dataclass instance (`instructions` keeps its default). -/
structure DrugEntity where
  name : String
  dosage : String
  frequency : String
  route : String
  duration : String
  instructions : String
  confidence : ℚ
deriving DecidableEq

/-- The entity built from one surviving `all_drugs` entry. -/
def mkDrugEntity (pd : PatternResults) (text : String) (p : String × StoredDrug) :
    DrugEntity :=
  ⟨p.2.name,
    find_closest_match p.2.name pd.dosages text,
    find_closest_match p.2.name pd.frequencies text,
    find_closest_match p.2.name pd.routes text,
    find_closest_match p.2.name pd.durations text,
    "",
    p.2.confidence⟩

/-- `_combine_drug_extractions`: build the dedup map, then emit one
`DrugEntity` per surviving key (dict value order), binding the four
attribute kinds with `_find_closest_match` against the pattern data. -/
def combine_drug_extractions (results : List ExtractionResult) (text : String) :
    List DrugEntity :=
  (combineMap results).map (mkDrugEntity (patternDataOf results) text)

/-! ## `src/backend/ocr_reader.py` -/

/-- The result dict one OCR engine returns: text, normalized confidence and
method tag. -/
structure OCRResult where
  text : String
  confidence : ℚ
  method : String
deriving DecidableEq

/-- Python `max(ocr_results, key=lambda x: x['confidence'])` over a
non-empty pool: strict improvement, so the first maximal element wins. -/
def maxByConf : OCRResult → List OCRResult → OCRResult
  | best, [] => best
  | best, x :: xs => maxByConf (if x.confidence > best.confidence then x else best) xs

/-- End of the cascade: best pool candidate, or the acquisition error when
the pool is empty. -/
def cascadeFinish (pool : List OCRResult) : Except String OCRResult :=
  match pool with
  | [] => .error "Failed to extract text using all available OCR methods"
  | x :: xs => .ok (maxByConf x xs)

/-- Step 3 of the cascade: Tesseract short-circuits above confidence `0.4`,
otherwise joins the pool. -/
def afterWatson2 (pool : List OCRResult) (tesseract_result : Option OCRResult) :
    Except String OCRResult :=
  match tesseract_result with
  | some t => if t.confidence > 0.4 then .ok t else cascadeFinish (pool ++ [t])
  | none => cascadeFinish pool

/-- Step 2 of the cascade: any Watson result is returned immediately (its
confidence is hard-coded to `0.8` by `_extract_with_watson` and it is never
pooled). -/
def afterPaddle (pool : List OCRResult) (watson_result tesseract_result : Option OCRResult) :
    Except String OCRResult :=
  match watson_result with
  | some w => .ok w
  | none => afterWatson2 pool tesseract_result

/-- The engine cascade of `EnhancedOCRReader.extract_text_from_image`
(lines after preprocessing): PaddleOCR short-circuits above `0.6`, else is
pooled; then Watson; then Tesseract above `0.4`, else pooled; then best of
pool, else the acquisition failure.  Each engine's outcome (`None` on
unavailability, error, or no text) is an `Option` parameter. -/
def extract_text_cascade (paddle_result watson_result tesseract_result : Option OCRResult) :
    Except String OCRResult :=
  match paddle_result with
  | some p =>
    if p.confidence > 0.6 then .ok p
    else afterPaddle [p] watson_result tesseract_result
  | none => afterPaddle [] watson_result tesseract_result

/-- `extract_text_from_image` including its outer `except Exception`
handler, which re-raises the cascade's `RuntimeError` as
`RuntimeError(f"OCR extraction failed: {str(e)}")`. -/
def extract_text_from_image (paddle_result watson_result tesseract_result : Option OCRResult) :
    Except String OCRResult :=
  match extract_text_cascade paddle_result watson_result tesseract_result with
  | .ok r => .ok r
  | .error e => .error ("OCR extraction failed: " ++ e)

/-! ## `src/backend/nlp_extractor.py` -/

/-- One standardized drug dict of `extract_drug_info` (fields defaulted to
`""` by the standardization step). -/
structure GatorDrugOut where
  drug_name : String
  dosage : String
  frequency : String
  route : String
deriving DecidableEq

/-- The outcome of `query_gatortron` as seen by `extract_drug_info`'s
`if "error" not in result and "drugs" in result:` dispatch: an error dict,
a dict with a `drugs` list (entries already shaped like the standardized
dicts, possibly with empty names), or a dict with neither key. -/
inductive GatorResponse where
  | errorResp (msg : String)
  | drugsResp (drugs : List GatorDrugOut)
  | otherResp
deriving DecidableEq

/-- `MedicalNERExtractor.extract_drug_info`: empty/whitespace-only input
returns `[]` before any engine runs; otherwise the GatorTron result is
standardized (entries without a drug name dropped) and returned when
non-empty, else the rule-based fallback runs.  The two engines (a network
call and the regex extractor) are opaque parameters. -/
def extract_drug_info (query_gatortron : String → GatorResponse)
    (rule_based : String → List GatorDrugOut) (medical_text : String) :
    List GatorDrugOut :=
  if medical_text = "" || strStrip medical_text = "" then []
  else
    match query_gatortron medical_text with
    | .drugsResp drugs =>
      let standardized_drugs := drugs.filter (fun d => d.drug_name ≠ "")
      if !standardized_drugs.isEmpty then standardized_drugs
      else rule_based medical_text
    | _ => rule_based medical_text

/-! ## Claims -/

/-- C3: `check_drug_interaction` returns the same severity/description
string for both argument orders: both orderings of the resolved identifier
pair are queried, so the selected table rows — and hence the first hit —
are identical. -/
theorem c3_interaction_lookup_symmetric (L : Loader) (drug1 drug2 : String) :
    check_drug_interaction L drug1 drug2 = check_drug_interaction L drug2 drug1 := by
  unfold check_drug_interaction
  by_cases h : L.hoddi_data.isEmpty
  · simp [h]
  · simp only [h, if_false, Bool.false_eq_true]
    have hpred : (fun r : HoddiRow =>
        (r.drug1_drugbank_id == get_drugbank_id L drug1 &&
          r.drug2_drugbank_id == get_drugbank_id L drug2) ||
        (r.drug1_drugbank_id == get_drugbank_id L drug2 &&
          r.drug2_drugbank_id == get_drugbank_id L drug1)) =
        (fun r : HoddiRow =>
        (r.drug1_drugbank_id == get_drugbank_id L drug2 &&
          r.drug2_drugbank_id == get_drugbank_id L drug1) ||
        (r.drug1_drugbank_id == get_drugbank_id L drug1 &&
          r.drug2_drugbank_id == get_drugbank_id L drug2)) := by
      funext r
      exact Bool.or_comm _ _
    rw [hpred]

/-- C5 counterexample: with an empty interaction table, a pairwise lookup
returns the literal `"Dataset not available"`, not `"None"` as claimed. -/
theorem c5_counterexample :
    check_drug_interaction ⟨[], []⟩ "aspirin" "warfarin" = "Dataset not available" ∧
    check_drug_interaction ⟨[], []⟩ "aspirin" "warfarin" ≠ "None" := by
  constructor <;> decide

/-- C5 (amended): when the interaction table is empty, every pairwise
lookup returns `"Dataset not available"` (the system degrades rather than
failing), and the per-drug results of a two-drug list therefore carry
`"with <other>: Dataset not available"` warnings instead of reporting no
interactions. -/
theorem c5_empty_table_amended (L : Loader) (d1 d2 : String)
    (h : L.hoddi_data = []) :
    check_drug_interaction L d1 d2 = "Dataset not available" ∧
    get_interaction L [d1, d2] =
      [⟨strStrip d1, get_drugbank_id L d1, "with " ++ d2 ++ ": Dataset not available"⟩,
       ⟨strStrip d2, get_drugbank_id L d2, "with " ++ d1 ++ ": Dataset not available"⟩] := by
  have hcheck : ∀ a b, check_drug_interaction L a b = "Dataset not available" := by
    intro a b
    unfold check_drug_interaction
    simp [h]
  refine ⟨hcheck d1 d2, ?_⟩
  unfold get_interaction
  simp [List.enum, List.enumFrom, hcheck, joinSemi]
  have hlit : (": " : String) ++ "Dataset not available" = ": Dataset not available" := by
    decide
  constructor <;> rw [String.append_assoc, hlit]

/-- C5 amended, witness at a concrete empty loader. -/
theorem c5_empty_table_amended_witness :
    check_drug_interaction ⟨[], []⟩ "aspirin" "warfarin" = "Dataset not available" ∧
    get_interaction ⟨[], []⟩ ["aspirin", "warfarin"] =
      [⟨"aspirin", "DB_UNKNOWN_ASPIRIN", "with warfarin: Dataset not available"⟩,
       ⟨"warfarin", "DB_UNKNOWN_WARFARIN", "with aspirin: Dataset not available"⟩] := by
  have h := c5_empty_table_amended ⟨[], []⟩ "aspirin" "warfarin" rfl
  refine ⟨h.1, ?_⟩
  rw [h.2]
  decide

/-- C10: an empty or whitespace-only input makes `extract_drug_info` return
`[]` immediately, whatever the GatorTron query and the rule-based fallback
would return — neither engine is consulted. -/
theorem c10_blank_input_short_circuits (query_gatortron : String → GatorResponse)
    (rule_based : String → List GatorDrugOut) (medical_text : String)
    (h : medical_text = "" ∨ strStrip medical_text = "") :
    extract_drug_info query_gatortron rule_based medical_text = [] := by
  unfold extract_drug_info
  rcases h with h | h <;> simp [h]

/-- Engine stubs for the C10 witness: both would contribute drugs if they
were ever consulted. -/
def gatorStub : String → GatorResponse :=
  fun _ => .drugsResp [⟨"aspirin", "81mg", "1/day", "oral"⟩]

/-- Rule-based stub for the C10 witness. -/
def ruleStub : String → List GatorDrugOut :=
  fun _ => [⟨"warfarin", "5mg", "1/day", "oral"⟩]

/-- C10 witness: whitespace-only text yields `[]` even though both engine
stubs would return drugs. -/
theorem c10_blank_input_short_circuits_witness :
    extract_drug_info gatorStub ruleStub "  \t " = [] :=
  c10_blank_input_short_circuits gatorStub ruleStub "  \t " (Or.inr (by decide))

/-- C9 (divergence exhibited): with no drugs extracted, the text endpoint's
bare `except Exception` catches its own `HTTPException(400, "No drugs found
in prescription text")` and converts it into a generic 500 "Analysis
failed" error, while the image endpoint (which has `except HTTPException:
raise`) surfaces the distinct 400 error as the claim describes. -/
theorem c9_no_drugs_error_divergence :
    analyze_prescription ⟨[], []⟩ 30 [] =
      .error ⟨500, "Analysis failed: 400: No drugs found in prescription text"⟩ ∧
    analyze_prescription_image ⟨[], []⟩ 30 "image/png" "Amoxicillin 500mg daily" [] =
      .error ⟨400, "No drugs found in prescription image. Please ensure the image contains a valid prescription."⟩ :=
  ⟨rfl, rfl⟩

/-- C6: the acquisition cascade tries engines in fixed priority order.
(1) When the first engine's confidence exceeds its short-circuit threshold
(`0.6`), its result is returned immediately — whatever the later engines
would have produced, they are never consulted.  (2) When no engine
short-circuits (first engine below `0.6`, Watson absent — any Watson result
short-circuits — and Tesseract below its `0.4` threshold), the retained
pool candidate with the maximum confidence is returned.  (3) When the pool
is empty after all engines, the call fails with the acquisition error. -/
theorem c6_cascade (p t : OCRResult) :
    (∀ watson_result tesseract_result, p.confidence > 0.6 →
      extract_text_from_image (some p) watson_result tesseract_result = .ok p) ∧
    (p.confidence ≤ 0.6 → t.confidence ≤ 0.4 →
      extract_text_from_image (some p) none (some t) =
        .ok (if t.confidence > p.confidence then t else p)) ∧
    extract_text_from_image none none none =
      .error "OCR extraction failed: Failed to extract text using all available OCR methods" := by
  refine ⟨?_, ?_, rfl⟩
  · intro w tr h
    simp [extract_text_from_image, extract_text_cascade, h]
  · intro hp ht
    have hp' := not_lt.mpr hp
    have ht' := not_lt.mpr ht
    simp [extract_text_from_image, extract_text_cascade, afterPaddle, afterWatson2,
      cascadeFinish, maxByConf, hp', ht']

/-- C6 witness: confidence `0.9` over the `0.6` threshold short-circuits —
the later engines' candidates are ignored; and a pool of `0.3` and `0.35`
(both below their thresholds) yields the higher pool candidate. -/
theorem c6_cascade_witness :
    extract_text_from_image (some ⟨"rx one", 0.9, "PaddleOCR"⟩)
        (some ⟨"rx two", 0.8, "IBM Watson"⟩) (some ⟨"rx three", 0.99, "Tesseract"⟩) =
      .ok ⟨"rx one", 0.9, "PaddleOCR"⟩ ∧
    extract_text_from_image (some ⟨"rx one", 0.3, "PaddleOCR"⟩) none
        (some ⟨"rx three", 0.35, "Tesseract"⟩) =
      .ok ⟨"rx three", 0.35, "Tesseract"⟩ := by
  constructor
  · exact (c6_cascade ⟨"rx one", 0.9, "PaddleOCR"⟩ ⟨"rx three", 0.99, "Tesseract"⟩).1
      (some ⟨"rx two", 0.8, "IBM Watson"⟩) (some ⟨"rx three", 0.99, "Tesseract"⟩)
      (by norm_num)
  · rw [(c6_cascade ⟨"rx one", 0.3, "PaddleOCR"⟩ ⟨"rx three", 0.35, "Tesseract"⟩).2.1
      (by norm_num) (by norm_num)]
    norm_num

/-- `_extract_severity` yields `"High"` exactly on text containing
`"severe"` or `"major"` (case-insensitive). -/
theorem extract_severity_eq_high (t : String) :
    extract_severity t = "High" ↔
      (strContains (strLower t) "severe" = true ∨ strContains (strLower t) "major" = true) := by
  unfold extract_severity
  by_cases h1 : (strContains (strLower t) "severe" || strContains (strLower t) "major") = true
  · simp only [h1, if_true]
    simp [Bool.or_eq_true] at h1
    simp [h1]
  · simp only [h1, if_false, Bool.false_eq_true]
    simp [Bool.or_eq_true] at h1
    by_cases h2 : (strContains (strLower t) "moderate" || strContains (strLower t) "warning") = true <;>
      simp [h1, h2]

/-- `_extract_severity` yields `"Medium"` exactly on text free of the High
keywords but containing `"moderate"` or `"warning"` (case-insensitive). -/
theorem extract_severity_eq_medium (t : String) :
    extract_severity t = "Medium" ↔
      (¬(strContains (strLower t) "severe" = true ∨ strContains (strLower t) "major" = true) ∧
       (strContains (strLower t) "moderate" = true ∨ strContains (strLower t) "warning" = true)) := by
  unfold extract_severity
  by_cases h1 : (strContains (strLower t) "severe" || strContains (strLower t) "major") = true
  · have h1' := h1
    simp [Bool.or_eq_true] at h1'
    simp [h1, h1']
  · have h1' := h1
    simp [Bool.or_eq_true] at h1'
    by_cases h2 : (strContains (strLower t) "moderate" || strContains (strLower t) "warning") = true
    · have h2' := h2
      simp [Bool.or_eq_true] at h2'
      simp [h1, h2, h1', h2']
    · have h2' := h2
      simp [Bool.or_eq_true] at h2'
      simp [h1, h2, h1', h2']

/-- The interaction-counting loop of `_calculate_overall_risk` computes the
number of non-`"None"` results of High severity and of Medium severity. -/
theorem interFold_spec (l : List InteractionResult) : ∀ c : Nat × Nat,
    l.foldl (fun (c : Nat × Nat) result =>
      if result.interaction ≠ "None" then
        let severity := extract_severity result.interaction
        if severity = "High" then (c.1 + 1, c.2)
        else if severity = "Medium" then (c.1, c.2 + 1)
        else c
      else c) c
    = (c.1 + l.countP (fun r =>
        decide (r.interaction ≠ "None" ∧ extract_severity r.interaction = "High")),
       c.2 + l.countP (fun r =>
        decide (r.interaction ≠ "None" ∧ extract_severity r.interaction = "Medium"))) := by
  induction l with
  | nil => intro c; simp
  | cons a l ih =>
    intro c
    rw [List.foldl_cons, List.countP_cons, List.countP_cons]
    by_cases h1 : a.interaction = "None"
    · simp only [h1, ne_eq, not_true_eq_false, if_false, ih]
      simp [h1]
    · by_cases h2 : extract_severity a.interaction = "High"
      · have hnm : ¬ extract_severity a.interaction = "Medium" := by
          rw [h2]; decide
        simp only [h1, ne_eq, not_false_eq_true, if_true, h2, ih]
        simp [h1, h2, hnm]
        omega
      · by_cases h3 : extract_severity a.interaction = "Medium"
        · simp only [h1, ne_eq, not_false_eq_true, if_true, h2, if_false, h3, ih]
          simp [h1, h2, h3]
          omega
        · simp only [h1, ne_eq, not_false_eq_true, if_true, h2, h3, if_false, ih]
          simp [h1, h2, h3]

/-- The dosage-counting loop of `_calculate_overall_risk` computes the
number of High-risk and Medium-risk advice entries. -/
theorem dosageFold_spec (l : List DosageAdviceR) : ∀ c : Nat × Nat,
    l.foldl (fun (c : Nat × Nat) advice =>
      if advice.risk_level = "High" then (c.1 + 1, c.2)
      else if advice.risk_level = "Medium" then (c.1, c.2 + 1)
      else c) c
    = (c.1 + l.countP (fun a => decide (a.risk_level = "High")),
       c.2 + l.countP (fun a => decide (a.risk_level = "Medium"))) := by
  induction l with
  | nil => intro c; simp
  | cons a l ih =>
    intro c
    rw [List.foldl_cons, List.countP_cons, List.countP_cons]
    by_cases h1 : a.risk_level = "High"
    · have hnm : ¬ a.risk_level = "Medium" := by rw [h1]; decide
      simp only [h1, if_true, ih]
      simp [h1, hnm]
      omega
    · by_cases h2 : a.risk_level = "Medium"
      · simp only [h1, if_false, h2, if_true, ih]
        simp [h1, h2]
        omega
      · simp only [h1, h2, if_false, ih]
        simp [h1, h2]

/-- C1: the overall risk is `"High"` when some interaction text other than
the `"None"` sentinel contains `"severe"` or `"major"` (case-insensitive)
or some dosage advice is High-risk; otherwise `"Medium"` when some such
interaction text contains `"moderate"` or `"warning"` or some advice is
Medium-risk; otherwise `"Low"` — regardless of how many Low or Medium
signals coexist with a High one. -/
theorem c1_overall_risk_classification (interaction_results : List InteractionResult)
    (dosage_advice : List DosageAdviceR) :
    calculate_overall_risk interaction_results dosage_advice =
      if (∃ r ∈ interaction_results, r.interaction ≠ "None" ∧
            (strContains (strLower r.interaction) "severe" = true ∨
             strContains (strLower r.interaction) "major" = true)) ∨
         (∃ d ∈ dosage_advice, d.risk_level = "High") then "High"
      else if (∃ r ∈ interaction_results, r.interaction ≠ "None" ∧
            (strContains (strLower r.interaction) "moderate" = true ∨
             strContains (strLower r.interaction) "warning" = true)) ∨
         (∃ d ∈ dosage_advice, d.risk_level = "Medium") then "Medium"
      else "Low" := by
  simp only [calculate_overall_risk]
  rw [interFold_spec, dosageFold_spec]
  simp only [Nat.zero_add]
  have hhigh : 0 < interaction_results.countP (fun r =>
        decide (r.interaction ≠ "None" ∧ extract_severity r.interaction = "High"))
      + dosage_advice.countP (fun a => decide (a.risk_level = "High")) ↔
      (∃ r ∈ interaction_results, r.interaction ≠ "None" ∧
        (strContains (strLower r.interaction) "severe" = true ∨
         strContains (strLower r.interaction) "major" = true)) ∨
      (∃ d ∈ dosage_advice, d.risk_level = "High") := by
    rw [add_pos_iff, List.countP_pos_iff, List.countP_pos_iff]
    simp only [decide_eq_true_eq, extract_severity_eq_high]
  by_cases hAD : (∃ r ∈ interaction_results, r.interaction ≠ "None" ∧
        (strContains (strLower r.interaction) "severe" = true ∨
         strContains (strLower r.interaction) "major" = true)) ∨
      (∃ d ∈ dosage_advice, d.risk_level = "High")
  · rw [if_pos (hhigh.mpr hAD), if_pos hAD]
  · rw [if_neg (fun h => hAD (hhigh.mp h)), if_neg hAD]
    have hmed : 0 < interaction_results.countP (fun r =>
          decide (r.interaction ≠ "None" ∧ extract_severity r.interaction = "Medium"))
        + dosage_advice.countP (fun a => decide (a.risk_level = "Medium")) ↔
        (∃ r ∈ interaction_results, r.interaction ≠ "None" ∧
          (strContains (strLower r.interaction) "moderate" = true ∨
           strContains (strLower r.interaction) "warning" = true)) ∨
        (∃ d ∈ dosage_advice, d.risk_level = "Medium") := by
      rw [add_pos_iff, List.countP_pos_iff, List.countP_pos_iff]
      simp only [decide_eq_true_eq]
      constructor
      · rintro (⟨r, hr, hne, hsev⟩ | hd)
        · exact Or.inl ⟨r, hr, hne, ((extract_severity_eq_medium r.interaction).mp hsev).2⟩
        · exact Or.inr hd
      · rintro (⟨r, hr, hne, htext⟩ | hd)
        · refine Or.inl ⟨r, hr, hne, (extract_severity_eq_medium r.interaction).mpr ⟨?_, htext⟩⟩
          intro hhightext
          exact hAD (Or.inl ⟨r, hr, hne, hhightext⟩)
        · exact Or.inr hd
    by_cases hBE : (∃ r ∈ interaction_results, r.interaction ≠ "None" ∧
          (strContains (strLower r.interaction) "moderate" = true ∨
           strContains (strLower r.interaction) "warning" = true)) ∨
        (∃ d ∈ dosage_advice, d.risk_level = "Medium")
    · rw [if_pos (hmed.mpr hBE), if_pos hBE]
    · rw [if_neg (fun h => hBE (hmed.mp h)), if_neg hBE]

/-- `find?` hits the first element satisfying the predicate: if everything
before `a` fails the predicate and `a` satisfies it, `a` is returned. -/
theorem find?_first_hit {α : Type} (p : α → Bool) (l1 l2 : List α) (a : α)
    (h1 : ∀ x ∈ l1, p x = false) (ha : p a = true) :
    (l1 ++ a :: l2).find? p = some a := by
  induction l1 with
  | nil => simp [List.find?_cons, ha]
  | cons x xs ih =>
    have hx := h1 x (List.mem_cons_self x xs)
    simp only [List.cons_append, List.find?_cons, hx]
    exact ih (fun y hy => h1 y (List.mem_cons_of_mem x hy))

/-- C4: `get_drugbank_id` is total and resolves in exactly this order:
(1) if the normalized (lower-cased, trimmed) name is a mapping key, the
first entry with that key is returned; (2) otherwise the identifier of the
first mapping entry, in table iteration order, whose name contains the
normalized input or is contained in it; (3) otherwise the sentinel
`"DB_UNKNOWN_"` followed by the upper-cased input name. -/
theorem c4_identity_resolution_order (L : Loader) (name : String) :
    (∀ l1 v l2, L.drug_mapping = l1 ++ (strStrip (strLower name), v) :: l2 →
      (∀ p ∈ l1, p.1 ≠ strStrip (strLower name)) →
      get_drugbank_id L name = v) ∧
    ((∀ p ∈ L.drug_mapping, p.1 ≠ strStrip (strLower name)) →
      ∀ l1 q l2, L.drug_mapping = l1 ++ q :: l2 →
      (strContains q.1 (strStrip (strLower name)) ||
        strContains (strStrip (strLower name)) q.1) = true →
      (∀ p ∈ l1, (strContains p.1 (strStrip (strLower name)) ||
        strContains (strStrip (strLower name)) p.1) = false) →
      get_drugbank_id L name = q.2) ∧
    ((∀ p ∈ L.drug_mapping, p.1 ≠ strStrip (strLower name) ∧
        (strContains p.1 (strStrip (strLower name)) ||
          strContains (strStrip (strLower name)) p.1) = false) →
      get_drugbank_id L name = "DB_UNKNOWN_" ++ strUpper name) := by
  refine ⟨?_, ?_, ?_⟩
  · intro l1 v l2 hsplit hne
    simp only [get_drugbank_id]
    rw [hsplit, find?_first_hit (fun p => p.1 == strStrip (strLower name)) l1 l2
      (strStrip (strLower name), v)
      (fun x hx => beq_eq_false_iff_ne.mpr (hne x hx)) (beq_self_eq_true _)]
  · intro hnokey l1 q l2 hsplit hq hprev
    simp only [get_drugbank_id]
    have hfind1 : L.drug_mapping.find? (fun p => p.1 == strStrip (strLower name)) = none := by
      rw [List.find?_eq_none]
      intro x hx
      simp only [beq_iff_eq]
      exact hnokey x hx
    rw [hfind1, hsplit, find?_first_hit _ l1 l2 q
      (fun x hx => by simpa using hprev x hx) hq]
  · intro hall
    simp only [get_drugbank_id]
    have hfind1 : L.drug_mapping.find? (fun p => p.1 == strStrip (strLower name)) = none := by
      rw [List.find?_eq_none]
      intro x hx
      simp only [beq_iff_eq]
      exact (hall x hx).1
    have hfind2 : L.drug_mapping.find? (fun p =>
        strContains p.1 (strStrip (strLower name)) ||
          strContains (strStrip (strLower name)) p.1) = none := by
      rw [List.find?_eq_none]
      intro x hx
      simp [(hall x hx).2]
    rw [hfind1, hfind2]

/-- C4 witness: against a mapping containing only `"aspirin"`, the unmapped
name `"Xyzzyblorp"` resolves to the sentinel `DB_UNKNOWN_XYZZYBLORP`. -/
theorem c4_identity_resolution_order_witness :
    get_drugbank_id ⟨[], [("aspirin", "DB00945")]⟩ "Xyzzyblorp" = "DB_UNKNOWN_XYZZYBLORP" := by
  rw [(c4_identity_resolution_order ⟨[], [("aspirin", "DB00945")]⟩ "Xyzzyblorp").2.2 (by decide)]
  decide

/-- The effect of one dedup update on a single key's stored value:
`none` is filled, and an existing value is replaced only on strictly
greater confidence. -/
def updateBest (k : String) (cur : Option StoredDrug) (d : StoredDrug) :
    Option StoredDrug :=
  if detKey d = k then
    match cur with
    | none => some d
    | some c => if c.confidence < d.confidence then some d else some c
  else cur

/-- Dict write then read: the written key reads back the new value, other
keys are untouched. -/
theorem lookup_setDrug (m : AMap) (k : String) (v : StoredDrug) (k' : String) :
    lookupDrug (setDrug m k v) k' = if k' = k then some v else lookupDrug m k' := by
  induction m with
  | nil =>
    simp only [setDrug, lookupDrug, beq_iff_eq]
    by_cases h : k' = k
    · subst h; simp
    · rw [if_neg (fun hh : k = k' => h hh.symm), if_neg h]
  | cons p rest ih =>
    simp only [setDrug]
    by_cases hpk : p.1 = k
    · rw [if_pos (beq_iff_eq.mpr hpk)]
      simp only [lookupDrug, beq_iff_eq]
      by_cases h : k' = k
      · subst h; simp
      · rw [if_neg (fun hh : k = k' => h hh.symm), if_neg h,
          if_neg (fun hh : p.1 = k' => h (hh.symm.trans hpk))]
    · rw [if_neg (fun hh => hpk (beq_iff_eq.mp hh))]
      simp only [lookupDrug, beq_iff_eq, ih]
      by_cases hpk' : p.1 = k'
      · have hk : ¬ k' = k := fun hh => hpk (hpk'.trans hh)
        rw [if_pos hpk', if_neg hk, if_pos hpk']
      · rw [if_neg hpk']
        by_cases h : k' = k
        · rw [if_pos h, if_pos h]
        · rw [if_neg h, if_neg h, if_neg hpk']

/-- One dedup update, seen through a single key's stored value. -/
theorem lookup_addDetection (conf : ℚ) (method : String) (m : AMap)
    (name : String) (k : String) :
    lookupDrug (addDetection conf method m name) k =
      updateBest k (lookupDrug m k) ⟨name, conf, method⟩ := by
  cases hcur : lookupDrug m (strStrip (strLower name)) with
  | none =>
    simp only [addDetection, hcur, lookup_setDrug, updateBest, detKey]
    by_cases hk : strStrip (strLower name) = k
    · rw [if_pos hk.symm, if_pos hk, ← hk, hcur]
    · rw [if_neg (fun hh : k = strStrip (strLower name) => hk hh.symm), if_neg hk]
  | some stored =>
    simp only [addDetection, hcur, updateBest, detKey]
    by_cases hlt : stored.confidence < conf
    · rw [if_pos hlt, lookup_setDrug]
      by_cases hk : strStrip (strLower name) = k
      · rw [if_pos hk.symm, if_pos hk, ← hk, hcur]
        simp [hlt]
      · rw [if_neg (fun hh : k = strStrip (strLower name) => hk hh.symm), if_neg hk]
    · rw [if_neg hlt]
      by_cases hk : strStrip (strLower name) = k
      · rw [if_pos hk, ← hk, hcur]
        simp [hlt]
      · rw [if_neg hk]

/-- A guarded fold is the fold of the filtered list. -/
theorem foldl_guard_filter {α β : Type} (g : α → Bool) (f : β → α → β)
    (l : List α) : ∀ b, l.foldl (fun b a => if g a then f b a else b) b
      = (l.filter g).foldl f b := by
  induction l with
  | nil => intro b; rfl
  | cons a l ih =>
    intro b
    rw [List.foldl_cons, List.filter_cons]
    by_cases hg : g a
    · rw [if_pos hg, if_pos hg, List.foldl_cons, ih]
    · rw [if_neg hg, if_neg hg, ih]

/-- One dedup update, with the detection packaged as a `StoredDrug`. -/
def addDet2 (m : AMap) (d : StoredDrug) : AMap :=
  addDetection d.confidence d.method m d.name

/-- Processing one extraction result is folding the dedup update over the
detections it submits. -/
theorem processResult_eq_detsOf (m : AMap) (r : ExtractionResult) :
    processResult m r = (detsOf r).foldl addDet2 m := by
  obtain ⟨method, confidence, payload⟩ := r
  cases payload with
  | drugsP names =>
    simp only [processResult, detsOf]
    rw [List.foldl_map, ← foldl_guard_filter]
    rfl
  | candidatesP names =>
    simp only [processResult, detsOf]
    rw [List.foldl_map]
    rfl
  | resultsP pr =>
    simp only [processResult, detsOf]
    rw [List.foldl_map]
    rfl
  | otherP => rfl

/-- The dedup map is the fold of the dedup update over the full detection
stream. -/
theorem combineMap_eq (results : List ExtractionResult) :
    combineMap results = (detStream results).foldl addDet2 [] := by
  unfold combineMap detStream
  rw [List.foldl_flatten, List.foldl_map]
  have hpr : processResult = fun m r => (detsOf r).foldl addDet2 m :=
    funext fun m => funext fun r => processResult_eq_detsOf m r
  rw [hpr]

/-- Reading one key through a fold of dedup updates is folding `updateBest`
over the stream. -/
theorem lookup_foldl_addDet2 : ∀ (L : List StoredDrug) (m : AMap) (k : String),
    lookupDrug (L.foldl addDet2 m) k = L.foldl (updateBest k) (lookupDrug m k) := by
  intro L
  induction L with
  | nil => intro m k; rfl
  | cons d L' ih =>
    intro m k
    rw [List.foldl_cons, List.foldl_cons, ih]
    unfold addDet2
    rw [lookup_addDetection]

/-- Folding `updateBest` from an existing best entry: either the entry
survives (every same-key detection of the stream is no more confident), or
the first detection attaining a strictly larger running maximum wins. -/
theorem updFold_some (k : String) : ∀ (L : List StoredDrug) (b : StoredDrug),
    (L.foldl (updateBest k) (some b) = some b ∧
      ∀ d ∈ L, detKey d = k → d.confidence ≤ b.confidence) ∨
    (∃ l1 d l2, L = l1 ++ d :: l2 ∧ L.foldl (updateBest k) (some b) = some d ∧
      detKey d = k ∧ b.confidence < d.confidence ∧
      (∀ e ∈ l1, detKey e = k → e.confidence < d.confidence) ∧
      (∀ e ∈ l2, detKey e = k → e.confidence ≤ d.confidence)) := by
  intro L
  induction L with
  | nil => intro b; left; exact ⟨rfl, by simp⟩
  | cons d L' ih =>
    intro b
    rw [List.foldl_cons]
    by_cases hk : detKey d = k
    · by_cases hlt : b.confidence < d.confidence
      · have hstep : updateBest k (some b) d = some d := by simp [updateBest, hk, hlt]
        rw [hstep]
        rcases ih d with ⟨heq, hall⟩ | ⟨l1, w, l2, hsplit, heq, hkey, hblt, hl1, hl2⟩
        · right
          exact ⟨[], d, L', by simp, heq, hk, hlt, by simp, hall⟩
        · right
          refine ⟨d :: l1, w, l2, by rw [hsplit]; rfl, heq, hkey, lt_trans hlt hblt, ?_, hl2⟩
          intro e he hek
          rcases List.mem_cons.mp he with rfl | he'
          · exact hblt
          · exact hl1 e he' hek
      · have hstep : updateBest k (some b) d = some b := by simp [updateBest, hk, hlt]
        rw [hstep]
        rcases ih b with ⟨heq, hall⟩ | ⟨l1, w, l2, hsplit, heq, hkey, hblt, hl1, hl2⟩
        · left
          refine ⟨heq, ?_⟩
          intro e he hek
          rcases List.mem_cons.mp he with rfl | he'
          · exact le_of_not_lt hlt
          · exact hall e he' hek
        · right
          refine ⟨d :: l1, w, l2, by rw [hsplit]; rfl, heq, hkey, hblt, ?_, hl2⟩
          intro e he hek
          rcases List.mem_cons.mp he with rfl | he'
          · exact lt_of_le_of_lt (le_of_not_lt hlt) hblt
          · exact hl1 e he' hek
    · have hstep : updateBest k (some b) d = some b := by simp [updateBest, hk]
      rw [hstep]
      rcases ih b with ⟨heq, hall⟩ | ⟨l1, w, l2, hsplit, heq, hkey, hblt, hl1, hl2⟩
      · left
        refine ⟨heq, ?_⟩
        intro e he hek
        rcases List.mem_cons.mp he with rfl | he'
        · exact absurd hek hk
        · exact hall e he' hek
      · right
        refine ⟨d :: l1, w, l2, by rw [hsplit]; rfl, heq, hkey, hblt, ?_, hl2⟩
        intro e he hek
        rcases List.mem_cons.mp he with rfl | he'
        · exact absurd hek hk
        · exact hl1 e he' hek

/-- Folding `updateBest` from the empty state: either no detection of the
stream carries the key, or the winner is a same-key detection that every
earlier same-key detection undercuts strictly and no later one beats. -/
theorem updFold_none (k : String) : ∀ L : List StoredDrug,
    (L.foldl (updateBest k) none = none ∧ ∀ d ∈ L, detKey d ≠ k) ∨
    (∃ l1 d l2, L = l1 ++ d :: l2 ∧ L.foldl (updateBest k) none = some d ∧
      detKey d = k ∧
      (∀ e ∈ l1, detKey e = k → e.confidence < d.confidence) ∧
      (∀ e ∈ l2, detKey e = k → e.confidence ≤ d.confidence)) := by
  intro L
  induction L with
  | nil => left; exact ⟨rfl, by simp⟩
  | cons d L' ih =>
    rw [List.foldl_cons]
    by_cases hk : detKey d = k
    · have hstep : updateBest k none d = some d := by simp [updateBest, hk]
      rw [hstep]
      rcases updFold_some k L' d with ⟨heq, hall⟩ | ⟨l1, w, l2, hsplit, heq, hkey, hblt, hl1, hl2⟩
      · right
        exact ⟨[], d, L', by simp, heq, hk, by simp, hall⟩
      · right
        refine ⟨d :: l1, w, l2, by rw [hsplit]; rfl, heq, hkey, ?_, hl2⟩
        intro e he hek
        rcases List.mem_cons.mp he with rfl | he'
        · exact hblt
        · exact hl1 e he' hek
    · have hstep : updateBest k none d = none := by simp [updateBest, hk]
      rw [hstep]
      rcases ih with ⟨heq, hall⟩ | ⟨l1, w, l2, hsplit, heq, hkey, hl1, hl2⟩
      · left
        refine ⟨heq, ?_⟩
        intro e he
        rcases List.mem_cons.mp he with rfl | he'
        · exact hk
        · exact hall e he'
      · right
        refine ⟨d :: l1, w, l2, by rw [hsplit]; rfl, heq, hkey, ?_, hl2⟩
        intro e he hek
        rcases List.mem_cons.mp he with rfl | he'
        · exact absurd hek hk
        · exact hl1 e he' hek

/-- A successful dict read exhibits a member. -/
theorem lookupDrug_mem : ∀ (m : AMap) (k : String) (d : StoredDrug),
    lookupDrug m k = some d → (k, d) ∈ m := by
  intro m
  induction m with
  | nil => intro k d h; cases h
  | cons p rest ih =>
    intro k d h
    simp only [lookupDrug] at h
    by_cases hp : p.1 = k
    · rw [if_pos (beq_iff_eq.mpr hp)] at h
      injection h with h'
      have hpd : (k, d) = p := by rw [← hp, ← h']
      rw [hpd]
      exact List.mem_cons_self _ _
    · rw [if_neg (fun hh => hp (beq_iff_eq.mp hh))] at h
      exact List.mem_cons_of_mem _ (ih k d h)

/-- C2: when the dedup map holds detection `d` under key `k`, `d` is a
detection of the submitted stream whose key is `k`, every earlier same-key
detection has strictly smaller confidence (a later detection replaces the
stored one only when strictly more confident, so on ties the first writer
wins) and no same-key detection anywhere has larger confidence (the stored
confidence is the maximum seen for the key); and the emitted fused entity
carries exactly that name and confidence. -/
theorem c2_dedup_first_writer_max (results : List ExtractionResult)
    (text k : String) (d : StoredDrug)
    (h : lookupDrug (combineMap results) k = some d) :
    (∃ l1 e l2, detStream results = l1 ++ e :: l2 ∧ e = d ∧ detKey d = k ∧
      (∀ x ∈ l1, detKey x = k → x.confidence < d.confidence) ∧
      (∀ x ∈ l2, detKey x = k → x.confidence ≤ d.confidence)) ∧
    (∃ ent ∈ combine_drug_extractions results text,
      ent.name = d.name ∧ ent.confidence = d.confidence) := by
  have hmem : (k, d) ∈ combineMap results := lookupDrug_mem _ _ _ h
  have hfold : lookupDrug (combineMap results) k =
      (detStream results).foldl (updateBest k) none := by
    rw [combineMap_eq, lookup_foldl_addDet2]
    rfl
  rw [hfold] at h
  constructor
  · rcases updFold_none k (detStream results) with ⟨heq, _⟩ |
      ⟨l1, w, l2, hsplit, heq, hkey, hl1, hl2⟩
    · rw [heq] at h; cases h
    · rw [heq] at h
      injection h with h'
      subst h'
      exact ⟨l1, w, l2, hsplit, rfl, hkey, hl1, hl2⟩
  · exact ⟨mkDrugEntity (patternDataOf results) text (k, d),
      List.mem_map_of_mem _ hmem, rfl, rfl⟩

/-- Two extraction results both detecting aspirin with confidence `0.6`,
for the C2 witness: on the tie, the earlier (PubMedBERT) entry must win. -/
def c2Results : List ExtractionResult :=
  [⟨"PubMedBERT", mkRat 3 5, .drugsP ["Aspirin"]⟩,
   ⟨"Drug NER", mkRat 3 5, .drugsP ["aspirin"]⟩]

/-- C2 witness: for key `"aspirin"`, the stored detection is the
first-seen `"Aspirin"` from PubMedBERT, its confidence is maximal for the
key, and a fused entity with that name and confidence is emitted. -/
theorem c2_dedup_first_writer_max_witness :
    (∃ l1 e l2, detStream c2Results = l1 ++ e :: l2 ∧
      e = (⟨"Aspirin", mkRat 3 5, "PubMedBERT"⟩ : StoredDrug) ∧
      detKey ⟨"Aspirin", mkRat 3 5, "PubMedBERT"⟩ = "aspirin" ∧
      (∀ x ∈ l1, detKey x = "aspirin" →
        x.confidence < (⟨"Aspirin", mkRat 3 5, "PubMedBERT"⟩ : StoredDrug).confidence) ∧
      (∀ x ∈ l2, detKey x = "aspirin" →
        x.confidence ≤ (⟨"Aspirin", mkRat 3 5, "PubMedBERT"⟩ : StoredDrug).confidence)) ∧
    (∃ ent ∈ combine_drug_extractions c2Results "",
      ent.name = "Aspirin" ∧ ent.confidence = mkRat 3 5) :=
  c2_dedup_first_writer_max c2Results "" "aspirin" ⟨"Aspirin", mkRat 3 5, "PubMedBERT"⟩
    (by decide)

/-- Dict write produces only old members or the written pair. -/
theorem mem_setDrug : ∀ (m : AMap) (k : String) (v : StoredDrug) (p : String × StoredDrug),
    p ∈ setDrug m k v → p ∈ m ∨ p = (k, v) := by
  intro m
  induction m with
  | nil =>
    intro k v p hp
    simp only [setDrug] at hp
    rcases List.mem_cons.mp hp with rfl | hp'
    · right; rfl
    · cases hp'
  | cons q rest ih =>
    intro k v p hp
    simp only [setDrug] at hp
    by_cases hq : q.1 = k
    · rw [if_pos (beq_iff_eq.mpr hq)] at hp
      rcases List.mem_cons.mp hp with rfl | hp'
      · right; rfl
      · left; exact List.mem_cons_of_mem _ hp'
    · rw [if_neg (fun hh => hq (beq_iff_eq.mp hh))] at hp
      rcases List.mem_cons.mp hp with rfl | hp'
      · left; exact List.mem_cons_self _ _
      · rcases ih k v p hp' with h | h
        · left; exact List.mem_cons_of_mem _ h
        · right; exact h

/-- A dedup update produces only old members or the submitted detection. -/
theorem mem_addDet2 (m : AMap) (d : StoredDrug) (p : String × StoredDrug)
    (hp : p ∈ addDet2 m d) : p ∈ m ∨ p.2 = d := by
  simp only [addDet2, addDetection] at hp
  rcases hcur : lookupDrug m (strStrip (strLower d.name)) with _ | stored
  · rw [hcur] at hp
    rcases mem_setDrug _ _ _ _ hp with h | h
    · exact Or.inl h
    · right; rw [h]
  · simp only [hcur] at hp
    by_cases hlt : stored.confidence < d.confidence
    · rw [if_pos hlt] at hp
      rcases mem_setDrug _ _ _ _ hp with h | h
      · exact Or.inl h
      · right; rw [h]
    · rw [if_neg hlt] at hp
      exact Or.inl hp

/-- Every value of the folded dedup map comes from the detection stream. -/
theorem mem_foldl_addDet2 : ∀ (L : List StoredDrug) (m : AMap) (p : String × StoredDrug),
    p ∈ L.foldl addDet2 m → p ∈ m ∨ ∃ e ∈ L, p.2 = e := by
  intro L
  induction L with
  | nil => intro m p hp; exact Or.inl hp
  | cons d L' ih =>
    intro m p hp
    rw [List.foldl_cons] at hp
    rcases ih (addDet2 m d) p hp with h | ⟨e, he, hpe⟩
    · rcases mem_addDet2 m d p h with h' | h'
      · exact Or.inl h'
      · exact Or.inr ⟨d, List.mem_cons_self _ _, h'⟩
    · exact Or.inr ⟨e, List.mem_cons_of_mem _ he, hpe⟩

/-- C7 counterexample: a length-2 detection arriving through the
`drug_candidates` branch is not discarded — it produces a fused entity, so
the length filter does not apply to every branch as claimed. -/
theorem c7_counterexample :
    combine_drug_extractions
        [⟨"BioBERT", mkRat 7 10, ExtractionPayload.candidatesP ["ox"]⟩] "" =
      [⟨"ox", "", "", "", "", "", mkRat 7 10⟩] ∧ ("ox" : String).length ≤ 2 := by
  constructor
  · decide
  · decide

/-- C7 (amended): the minimum-length guard (`name` non-empty and longer
than 2) applies only to detections arriving through the `drugs` branch;
`drug_candidates` and pattern `results` detections are admitted regardless
of length.  Every emitted fused entity's name and confidence come from a
detection the guard admitted (`detStream` applies the guard to the `drugs`
branch alone, exactly as the source does). -/
theorem c7_length_filter_amended (results : List ExtractionResult) (text : String)
    (ent : DrugEntity) (h : ent ∈ combine_drug_extractions results text) :
    ∃ e ∈ detStream results, e.name = ent.name ∧ e.confidence = ent.confidence := by
  unfold combine_drug_extractions at h
  rcases List.mem_map.mp h with ⟨p, hp, rfl⟩
  rw [combineMap_eq] at hp
  rcases mem_foldl_addDet2 (detStream results) [] p hp with habs | ⟨e, he, hpe⟩
  · cases habs
  · refine ⟨e, he, ?_, ?_⟩
    · rw [← hpe]; rfl
    · rw [← hpe]; rfl

/-- Pattern-extraction input for the C7 witness. -/
def c7Results : List ExtractionResult :=
  [⟨"Pattern Matching", mkRat 3 5, .resultsP ⟨["Warfarin"], ["5mg"], [], [], []⟩⟩]

/-- C7 amended, witness: the emitted warfarin entity traces back to an
admitted detection of the stream. -/
theorem c7_length_filter_amended_witness :
    ∃ e ∈ detStream c7Results, e.name = "Warfarin" ∧ e.confidence = mkRat 3 5 :=
  c7_length_filter_amended c7Results "" ⟨"Warfarin", "5mg", "", "", "", "", mkRat 3 5⟩
    (by decide)

/-- Folding the closest-candidate loop from an existing best at distance
`bd`: either the best survives (every found candidate is at distance at
least `bd`), or the first candidate attaining a strictly smaller running
minimum wins — every found candidate before it is strictly farther, every
one after it no closer. -/
theorem closestFoldSome (tl : String) (dpos : Nat) : ∀ (L : List String) (b : String) (bd : Nat),
    (L.foldl (closestStep tl dpos) (b, some bd) = (b, some bd) ∧
      ∀ c ∈ L, ∀ cp, strFindPos tl (strLower c) = some cp → bd ≤ Nat.dist cp dpos) ∨
    (∃ l1 c l2 cp, L = l1 ++ c :: l2 ∧ strFindPos tl (strLower c) = some cp ∧
      L.foldl (closestStep tl dpos) (b, some bd) = (c, some (Nat.dist cp dpos)) ∧
      Nat.dist cp dpos < bd ∧
      (∀ e ∈ l1, ∀ ep, strFindPos tl (strLower e) = some ep →
        Nat.dist cp dpos < Nat.dist ep dpos) ∧
      (∀ e ∈ l2, ∀ ep, strFindPos tl (strLower e) = some ep →
        Nat.dist cp dpos ≤ Nat.dist ep dpos)) := by
  intro L
  induction L with
  | nil => intro b bd; left; exact ⟨rfl, by simp⟩
  | cons c0 L' ih =>
    intro b bd
    rw [List.foldl_cons]
    cases hf : strFindPos tl (strLower c0) with
    | none =>
      have hstep : closestStep tl dpos (b, some bd) c0 = (b, some bd) := by
        simp [closestStep, hf]
      rw [hstep]
      rcases ih b bd with ⟨heq, hall⟩ | ⟨l1, c, l2, cp, hsplit, hcp, heq, hlt, hl1, hl2⟩
      · left
        refine ⟨heq, ?_⟩
        intro e he ep hep
        rcases List.mem_cons.mp he with rfl | he'
        · rw [hf] at hep; cases hep
        · exact hall e he' ep hep
      · right
        refine ⟨c0 :: l1, c, l2, cp, by rw [hsplit]; rfl, hcp, heq, hlt, ?_, hl2⟩
        intro e he ep hep
        rcases List.mem_cons.mp he with rfl | he'
        · rw [hf] at hep; cases hep
        · exact hl1 e he' ep hep
    | some cp0 =>
      have hstep : closestStep tl dpos (b, some bd) c0 =
          (if Nat.dist cp0 dpos < bd then (c0, some (Nat.dist cp0 dpos)) else (b, some bd)) := by
        simp [closestStep, hf]
      by_cases hlt0 : Nat.dist cp0 dpos < bd
      · rw [hstep, if_pos hlt0]
        rcases ih c0 (Nat.dist cp0 dpos) with ⟨heq, hall⟩ |
          ⟨l1, c, l2, cp, hsplit, hcp, heq, hlt, hl1, hl2⟩
        · right
          exact ⟨[], c0, L', cp0, by simp, hf, heq, hlt0, by simp, hall⟩
        · right
          refine ⟨c0 :: l1, c, l2, cp, by rw [hsplit]; rfl, hcp, heq,
            lt_trans hlt hlt0, ?_, hl2⟩
          intro e he ep hep
          rcases List.mem_cons.mp he with rfl | he'
          · rw [hf] at hep
            injection hep with hep'
            rw [← hep']
            exact hlt
          · exact hl1 e he' ep hep
      · rw [hstep, if_neg hlt0]
        rcases ih b bd with ⟨heq, hall⟩ | ⟨l1, c, l2, cp, hsplit, hcp, heq, hlt, hl1, hl2⟩
        · left
          refine ⟨heq, ?_⟩
          intro e he ep hep
          rcases List.mem_cons.mp he with rfl | he'
          · rw [hf] at hep
            injection hep with hep'
            rw [← hep']
            exact le_of_not_lt hlt0
          · exact hall e he' ep hep
        · right
          refine ⟨c0 :: l1, c, l2, cp, by rw [hsplit]; rfl, hcp, heq, hlt, ?_, hl2⟩
          intro e he ep hep
          rcases List.mem_cons.mp he with rfl | he'
          · rw [hf] at hep
            injection hep with hep'
            rw [← hep']
            exact lt_of_lt_of_le hlt (le_of_not_lt hlt0)
          · exact hl1 e he' ep hep

/-- Folding the closest-candidate loop from the initial state (`""`,
infinite distance): either no candidate is found in the text, or the
winner is a found candidate that strictly beats every earlier found one
and is not beaten by any later one. -/
theorem closestFoldNone (tl : String) (dpos : Nat) : ∀ L : List String,
    (L.foldl (closestStep tl dpos) ("", none) = ("", none) ∧
      ∀ c ∈ L, strFindPos tl (strLower c) = none) ∨
    (∃ l1 c l2 cp, L = l1 ++ c :: l2 ∧ strFindPos tl (strLower c) = some cp ∧
      L.foldl (closestStep tl dpos) ("", none) = (c, some (Nat.dist cp dpos)) ∧
      (∀ e ∈ l1, ∀ ep, strFindPos tl (strLower e) = some ep →
        Nat.dist cp dpos < Nat.dist ep dpos) ∧
      (∀ e ∈ l2, ∀ ep, strFindPos tl (strLower e) = some ep →
        Nat.dist cp dpos ≤ Nat.dist ep dpos)) := by
  intro L
  induction L with
  | nil => left; exact ⟨rfl, by simp⟩
  | cons c0 L' ih =>
    rw [List.foldl_cons]
    cases hf : strFindPos tl (strLower c0) with
    | none =>
      have hstep : closestStep tl dpos ("", none) c0 = ("", none) := by
        simp [closestStep, hf]
      rw [hstep]
      rcases ih with ⟨heq, hall⟩ | ⟨l1, c, l2, cp, hsplit, hcp, heq, hl1, hl2⟩
      · left
        refine ⟨heq, ?_⟩
        intro e he
        rcases List.mem_cons.mp he with rfl | he'
        · exact hf
        · exact hall e he'
      · right
        refine ⟨c0 :: l1, c, l2, cp, by rw [hsplit]; rfl, hcp, heq, ?_, hl2⟩
        intro e he ep hep
        rcases List.mem_cons.mp he with rfl | he'
        · rw [hf] at hep; cases hep
        · exact hl1 e he' ep hep
    | some cp0 =>
      have hstep : closestStep tl dpos ("", none) c0 = (c0, some (Nat.dist cp0 dpos)) := by
        simp [closestStep, hf]
      rw [hstep]
      rcases closestFoldSome tl dpos L' c0 (Nat.dist cp0 dpos) with ⟨heq, hall⟩ |
        ⟨l1, c, l2, cp, hsplit, hcp, heq, hlt, hl1, hl2⟩
      · right
        exact ⟨[], c0, L', cp0, by simp, hf, heq, by simp, hall⟩
      · right
        refine ⟨c0 :: l1, c, l2, cp, by rw [hsplit]; rfl, hcp, heq, ?_, hl2⟩
        intro e he ep hep
        rcases List.mem_cons.mp he with rfl | he'
        · rw [hf] at hep
          injection hep with hep'
          rw [← hep']
          exact hlt
        · exact hl1 e he' ep hep

/-- C8: the attribute binder returns `""` on an empty candidate list; the
first candidate in encounter order when the drug mention is not found in
the text; and otherwise — provided at least one candidate occurs in the
text — a found candidate at minimum absolute character distance from the
mention, earlier candidates winning ties (every found candidate before the
winner is strictly farther, every found one after it no closer). -/
theorem c8_attribute_binder (drug_name : String) (candidates : List String)
    (text : String) :
    (candidates = [] → find_closest_match drug_name candidates text = "") ∧
    (∀ c0 rest, candidates = c0 :: rest →
      strFindPos (strLower text) (strLower drug_name) = none →
      find_closest_match drug_name candidates text = c0) ∧
    (∀ dpos, strFindPos (strLower text) (strLower drug_name) = some dpos →
      (∃ c ∈ candidates, (strFindPos (strLower text) (strLower c)).isSome) →
      ∃ l1 c l2 cp, candidates = l1 ++ c :: l2 ∧
        strFindPos (strLower text) (strLower c) = some cp ∧
        find_closest_match drug_name candidates text = c ∧
        (∀ e ∈ l1, ∀ ep, strFindPos (strLower text) (strLower e) = some ep →
          Nat.dist cp dpos < Nat.dist ep dpos) ∧
        (∀ e ∈ l2, ∀ ep, strFindPos (strLower text) (strLower e) = some ep →
          Nat.dist cp dpos ≤ Nat.dist ep dpos)) := by
  refine ⟨?_, ?_, ?_⟩
  · intro h
    rw [h]
    rfl
  · intro c0 rest hc hnone
    rw [hc]
    simp only [find_closest_match, hnone]
  · intro dpos hdrug hex
    cases candidates with
    | nil =>
      rcases hex with ⟨c, hc, _⟩
      cases hc
    | cons c0 rest =>
      simp only [find_closest_match, hdrug]
      rcases closestFoldNone (strLower text) dpos (c0 :: rest) with ⟨heq, hall⟩ |
        ⟨l1, c, l2, cp, hsplit, hcp, heq, hl1, hl2⟩
      · exfalso
        rcases hex with ⟨c, hc, hsome⟩
        rw [hall c hc] at hsome
        cases hsome
      · exact ⟨l1, c, l2, cp, hsplit, hcp, by rw [heq], hl1, hl2⟩

/-- C8 witness: for `"Amoxicillin"` in `"Amoxicillin 500mg twice daily"`
with candidates `["twice", "500mg"]`, the later candidate `"500mg"` is
strictly closer to the mention and is returned. -/
theorem c8_attribute_binder_witness :
    ∃ l1 c l2 cp, (["twice", "500mg"] : List String) = l1 ++ c :: l2 ∧
      strFindPos (strLower "Amoxicillin 500mg twice daily") (strLower c) = some cp ∧
      find_closest_match "Amoxicillin" ["twice", "500mg"]
        "Amoxicillin 500mg twice daily" = c ∧
      (∀ e ∈ l1, ∀ ep, strFindPos (strLower "Amoxicillin 500mg twice daily")
          (strLower e) = some ep → Nat.dist cp 0 < Nat.dist ep 0) ∧
      (∀ e ∈ l2, ∀ ep, strFindPos (strLower "Amoxicillin 500mg twice daily")
          (strLower e) = some ep → Nat.dist cp 0 ≤ Nat.dist ep 0) :=
  (c8_attribute_binder "Amoxicillin" ["twice", "500mg"]
    "Amoxicillin 500mg twice daily").2.2 0 (by decide) (by decide)
